import Mathlib

/-!
Verification of the AuthorizationPolicy matching semantics of
banzaicloud/istio-client-go.

The repository itself is a passive data model: the Go source under
`pkg/security/v1beta1/authorizationpolicy_types.go` declares the
`AuthorizationPolicy`, `Rule`, `Source`, `Operation` and `Condition`
record types together with documentation of their evaluation semantics,
but ships no evaluator.  The data types below are translated from that
Go source (keeping the Go field names).  The evaluation functions
(`globMatch`, `matchPair`, `matchSource`, `matchOperation`,
`matchCondition`, `matchRule`, `decide`, policy loading) are modelled
from the specification, which is the only description of the evaluator.
-/

namespace IstioClientGo

/-- Modelled from the spec: the glob mini-language of §4.1, missing from the
repository (the Go source documents it in the comment on `Rule`:
Exact, Prefix, Suffix and Presence match).  Precedence: a bare star is a
presence match; a trailing star (pattern longer than one character) is a
prefix match; a leading star (pattern longer than one character) is a
suffix match; otherwise the match is exact. -/
def globMatch (pattern value : String) : Bool :=
  if pattern = "*" then !(value.data.isEmpty)
  else if 1 < pattern.data.length ∧ pattern.data.getLast? = some ('*') then
    List.isPrefixOf (pattern.data.dropLast) value.data
  else if 1 < pattern.data.length ∧ pattern.data.head? = some ('*') then
    List.isSuffixOf (pattern.data.drop 1) value.data
  else pattern = value

/-- Modelled from the spec: the positive/negative list-pair matcher of §4.2,
missing from the repository.  The positive half passes when the positive
list is empty or some entry glob-matches the value; the negative half
passes when the negative list is empty or no entry glob-matches the
value; the pair passes when both halves pass. -/
def matchPair (positive negative : List String) (value : String) : Bool :=
  (if positive.isEmpty then true else positive.any (fun p => globMatch p value)) &&
  (if negative.isEmpty then true else !(negative.any (fun p => globMatch p value)))

/-- `Source` from `authorizationpolicy_types.go`: eight string-list fields in
four positive/negative pairs.  Go nil slices are empty lists. -/
structure Source where
  Principals : List String
  NotPrincipals : List String
  RequestPrincipals : List String
  NotRequestPrincipals : List String
  Namespaces : List String
  NotNamespaces : List String
  IPBlocks : List String
  NotIPBlocks : List String
deriving DecidableEq

/-- `Operation` from `authorizationpolicy_types.go`: four positive/negative
pairs over hosts, ports, methods, paths. -/
structure Operation where
  Hosts : List String
  NotHosts : List String
  Ports : List String
  NotPorts : List String
  Methods : List String
  NotMethods : List String
  Paths : List String
  NotPaths : List String
deriving DecidableEq

/-- `Condition` from `authorizationpolicy_types.go`: attribute key plus
Values/NotValues lists. -/
structure Condition where
  Key : String
  Values : List String
  NotValues : List String
deriving DecidableEq

/-- `RuleFrom` from `authorizationpolicy_types.go`: wraps one optional
`Source` (a Go `*Source`, which may be nil). -/
structure RuleFrom where
  Source : Option Source
deriving DecidableEq

/-- `RuleTo` from `authorizationpolicy_types.go`: wraps one optional
`Operation`. -/
structure RuleTo where
  Operation : Option Operation
deriving DecidableEq

/-- `Rule` from `authorizationpolicy_types.go`: optional From/To/When lists
(Go nil slices are empty lists). -/
structure Rule where
  From : List RuleFrom
  To : List RuleTo
  When : List Condition
deriving DecidableEq

/-- Modelled from the spec: `WorkloadSelector` of `pkg/type/v1beta1`, whose
source file is not in the repository snapshot; §3 describes it as a
label-equality map with subset-of semantics. -/
structure WorkloadSelector where
  MatchLabels : List (String × String)
deriving DecidableEq

/-- `AuthorizationPolicyAction` from `authorizationpolicy_types.go`: a Go
string type. -/
abbrev AuthorizationPolicyAction : Type := String

/-- Constant `AuthorizationPolicyActionAllow` from the Go source. -/
def AuthorizationPolicyActionAllow : AuthorizationPolicyAction := "ALLOW"

/-- Constant `AuthorizationPolicyActionDeny` from the Go source. -/
def AuthorizationPolicyActionDeny : AuthorizationPolicyAction := "DENY"

/-- `AuthorizationPolicySpec` from `authorizationpolicy_types.go`: optional
selector, optional rules, action string (empty when unset; the Go zero
value of a string field). -/
structure AuthorizationPolicySpec where
  Selector : Option WorkloadSelector
  Rules : List Rule
  Action : AuthorizationPolicyAction
deriving DecidableEq

/-- `AuthorizationPolicy` from `authorizationpolicy_types.go`.  The
Kubernetes object metadata is not part of the decision path modelled
here (namespace-scope resolution is declared an external concern by the
spec, §4.7 step 1). -/
structure AuthorizationPolicy where
  Spec : AuthorizationPolicySpec
deriving DecidableEq

/-- Modelled from the spec: the request-attribute bundle of §6, consumed by
the evaluator.  `named` carries the arbitrary named multi-valued
attributes used by `Condition` keys (such as JWT claims). -/
structure RequestAttributes where
  principal : String
  requestPrincipal : String
  sourceNamespace : String
  sourceIP : String
  host : String
  port : Nat
  method : String
  path : String
  workloadLabels : List (String × String)
  named : List (String × List String)

/-- Modelled from the spec: label-selector matching of §3 and §4.7 step 1.
An absent selector applies to every workload; a present selector selects
a workload iff every listed label is present with the same value
(subset-of semantics, AND across keys). -/
def selectorMatches (sel : Option WorkloadSelector) (labels : List (String × String)) : Bool :=
  match sel with
  | none => true
  | some s => s.MatchLabels.all (fun kv => labels.lookup kv.fst == some kv.snd)

/-- Modelled from the spec: the Source matcher of §4.3, an AND over the four
field pairs via `matchPair` (§4.2 states the pair matcher is reused
uniformly for all eight Source fields). -/
def matchSource (src : Source) (attrs : RequestAttributes) : Bool :=
  matchPair src.Principals src.NotPrincipals attrs.principal &&
  matchPair src.RequestPrincipals src.NotRequestPrincipals attrs.requestPrincipal &&
  matchPair src.Namespaces src.NotNamespaces attrs.sourceNamespace &&
  matchPair src.IPBlocks src.NotIPBlocks attrs.sourceIP

/-- Modelled from the spec: a nil `*Source` in a `RuleFrom` matches
unconditionally (§4.3). -/
def matchSourceOpt (src : Option Source) (attrs : RequestAttributes) : Bool :=
  match src with
  | none => true
  | some s => matchSource s attrs

/-- Modelled from the spec: the Operation matcher of §4.4, an AND over the
four field pairs via `matchPair`, the port compared in stringified
form. -/
def matchOperation (op : Operation) (attrs : RequestAttributes) : Bool :=
  matchPair op.Hosts op.NotHosts attrs.host &&
  matchPair op.Ports op.NotPorts (Nat.repr attrs.port) &&
  matchPair op.Methods op.NotMethods attrs.method &&
  matchPair op.Paths op.NotPaths attrs.path

/-- Modelled from the spec: a nil `*Operation` in a `RuleTo` matches
unconditionally, mirroring the nil-Source convention of §4.3. -/
def matchOperationOpt (op : Option Operation) (attrs : RequestAttributes) : Bool :=
  match op with
  | none => true
  | some o => matchOperation o attrs

/-- Modelled from the spec: the named-attribute lookup of §4.5; a key absent
from the bundle yields the empty value set. -/
def lookupAttr (attrs : RequestAttributes) (key : String) : List String :=
  match attrs.named.lookup key with
  | some vs => vs
  | none => []

/-- Modelled from the spec: the Condition matcher of §4.5: passes iff
(Values empty OR some attribute value glob-matches an entry of Values)
AND (NotValues empty OR no attribute value glob-matches an entry of
NotValues). -/
def matchCondition (c : Condition) (attrs : RequestAttributes) : Bool :=
  let vals := lookupAttr attrs c.Key
  (if c.Values.isEmpty then true
   else vals.any (fun v => c.Values.any (fun p => globMatch p v))) &&
  (if c.NotValues.isEmpty then true
   else !(vals.any (fun v => c.NotValues.any (fun p => globMatch p v))))

/-- Modelled from the spec: the Rule matcher of §4.6: From and To are ORed
internally and pass when absent; When is ANDed over every condition and
passes when absent; the rule matches when all three categories pass. -/
def matchRule (r : Rule) (attrs : RequestAttributes) : Bool :=
  (if r.From.isEmpty then true
   else r.From.any (fun rf => matchSourceOpt rf.Source attrs)) &&
  (if r.To.isEmpty then true
   else r.To.any (fun rt => matchOperationOpt rt.Operation attrs)) &&
  (if r.When.isEmpty then true
   else r.When.all (fun c => matchCondition c attrs))

/-- The binary decision produced by the evaluator (§6: output is ALLOW or
DENY, no other channel). -/
inductive Decision where
  | ALLOW : Decision
  | DENY : Decision
deriving DecidableEq

/-- Modelled from the spec: whether a policy belongs to the DENY group of
§4.7 step 2. -/
def isDenyAction (p : AuthorizationPolicy) : Bool :=
  p.Spec.Action = AuthorizationPolicyActionDeny

/-- Modelled from the spec: whether a policy belongs to the ALLOW group of
§4.7 steps 3 and 4; an unset action defaults to ALLOW (the Go constant
doc: ALLOW is the default type). -/
def isAllowAction (p : AuthorizationPolicy) : Bool :=
  p.Spec.Action = AuthorizationPolicyActionAllow ∨ p.Spec.Action = ""

/-- Modelled from the spec: a policy matches a request when at least one of
its rules matches (the Go doc on `Rules`: a match occurs when at least
one rule matches the request; if not set, the match will never
occur). -/
def policyMatches (p : AuthorizationPolicy) (attrs : RequestAttributes) : Bool :=
  p.Spec.Rules.any (fun r => matchRule r attrs)

/-- Modelled from the spec: the policies of the snapshot whose selector
matches the target workload's labels (§4.7 step 1). -/
def selectPolicies (policies : List AuthorizationPolicy) (attrs : RequestAttributes) :
    List AuthorizationPolicy :=
  policies.filter (fun p => selectorMatches p.Spec.Selector attrs.workloadLabels)

/-- Modelled from the spec: the policy evaluator `decide` of §4.7, missing
from the repository.  Deny-first fixed precedence: any matching selected
DENY policy denies; with no selected ALLOW policies the request is
allowed; a matching selected ALLOW policy allows; otherwise the request
is denied. -/
def decide (policies : List AuthorizationPolicy) (attrs : RequestAttributes) : Decision :=
  let selected := selectPolicies policies attrs
  let denyPolicies := selected.filter isDenyAction
  let allowPolicies := selected.filter isAllowAction
  if denyPolicies.any (fun p => policyMatches p attrs) then Decision.DENY
  else if allowPolicies.isEmpty then Decision.ALLOW
  else if allowPolicies.any (fun p => policyMatches p attrs) then Decision.ALLOW
  else Decision.DENY

/-- Modelled from the spec: the action values accepted at load time; §7
declares any other value a fatal configuration error for that policy.
The empty string is the unset Go zero value, documented to default to
ALLOW. -/
def validAction (a : AuthorizationPolicyAction) : Bool :=
  a = AuthorizationPolicyActionAllow ∨ a = AuthorizationPolicyActionDeny ∨ a = ""

/-- Modelled from the spec: load-time validation of a single policy (§7):
a policy whose action value is unknown is malformed and rejected. -/
def loadPolicy (p : AuthorizationPolicy) : Option AuthorizationPolicy :=
  if validAction p.Spec.Action then some p else none

/-- Modelled from the spec: the active snapshot keeps exactly the policies
that pass load-time validation (§7: reject the document and exclude it
from the active snapshot). -/
def loadSnapshot (policies : List AuthorizationPolicy) : List AuthorizationPolicy :=
  policies.filterMap loadPolicy

/-- `Timestamp` of gogo protobuf `types.Timestamp`, the payload of the two
time fields of `IstioCondition` (meta/v1alpha1/status.proto). -/
structure Timestamp where
  Seconds : Int
  Nanos : Int
deriving DecidableEq

/-- `IstioCondition` from the generated `meta/v1alpha1/status.proto` Go
code; the two time fields are Go pointers, hence optional. -/
structure IstioCondition where
  «Type» : String
  Status : String
  LastProbeTime : Option Timestamp
  LastTransitionTime : Option Timestamp
  Reason : String
  Message : String
deriving DecidableEq

/-- `IstioStatus` from the generated `meta/v1alpha1/status.proto` Go code;
`Conditions` is a Go slice of pointers, so each entry is optional. -/
structure IstioStatus where
  Conditions : List (Option IstioCondition)
  ObservedGeneration : Int
deriving DecidableEq

/-- Modelled from the spec: the field-by-field deep copy of a `Timestamp`
performed by `proto.Clone`, whose implementation is external library
code (gogo/protobuf). -/
def Timestamp.clone (t : Timestamp) : Timestamp :=
  { Seconds := t.Seconds, Nanos := t.Nanos }

/-- Modelled from the spec: the field-by-field deep copy of an
`IstioCondition` performed by `proto.Clone` inside
`IstioCondition.DeepCopyInto` (external library code). -/
def IstioCondition.clone (c : IstioCondition) : IstioCondition :=
  { «Type» := c.«Type»
    Status := c.Status
    LastProbeTime := c.LastProbeTime.map Timestamp.clone
    LastTransitionTime := c.LastTransitionTime.map Timestamp.clone
    Reason := c.Reason
    Message := c.Message }

/-- `IstioCondition.DeepCopy` from the generated Go code: nil receivers map
to nil, any other receiver is deep-copied via `DeepCopyInto`
(`proto.Clone`). -/
def IstioCondition.DeepCopy (c : Option IstioCondition) : Option IstioCondition :=
  match c with
  | none => none
  | some c => some c.clone

/-- Modelled from the spec: the deep copy of an `IstioStatus` performed by
`proto.Clone` inside `IstioStatus.DeepCopyInto`: each condition pointer
of the slice is cloned, and the observed generation copied. -/
def IstioStatus.clone (s : IstioStatus) : IstioStatus :=
  { Conditions := s.Conditions.map (fun oc => oc.map IstioCondition.clone)
    ObservedGeneration := s.ObservedGeneration }

/-- `IstioStatus.DeepCopy` from the generated Go code: nil receivers map to
nil, any other receiver is deep-copied via `DeepCopyInto`
(`proto.Clone`). -/
def IstioStatus.DeepCopy (s : Option IstioStatus) : Option IstioStatus :=
  match s with
  | none => none
  | some s => some s.clone

/-- Modelled from the spec: the proposition that some selected DENY policy
has a rule matching the request (§4.7 step 2). -/
def denyHit (policies : List AuthorizationPolicy) (attrs : RequestAttributes) : Prop :=
  ∃ p ∈ policies, selectorMatches p.Spec.Selector attrs.workloadLabels = true ∧
    p.Spec.Action = AuthorizationPolicyActionDeny ∧
    ∃ r ∈ p.Spec.Rules, matchRule r attrs = true

/-- Modelled from the spec: the proposition that at least one selected policy
belongs to the ALLOW group (§4.7 step 3); an unset action counts as
ALLOW. -/
def hasAllowPolicy (policies : List AuthorizationPolicy) (attrs : RequestAttributes) : Prop :=
  ∃ p ∈ policies, selectorMatches p.Spec.Selector attrs.workloadLabels = true ∧
    (p.Spec.Action = AuthorizationPolicyActionAllow ∨ p.Spec.Action = "")

/-- Modelled from the spec: the proposition that some selected ALLOW policy
has a rule matching the request (§4.7 step 4). -/
def allowHit (policies : List AuthorizationPolicy) (attrs : RequestAttributes) : Prop :=
  ∃ p ∈ policies, selectorMatches p.Spec.Selector attrs.workloadLabels = true ∧
    (p.Spec.Action = AuthorizationPolicyActionAllow ∨ p.Spec.Action = "") ∧
    ∃ r ∈ p.Spec.Rules, matchRule r attrs = true

/-- A request-attribute fixture for concrete evaluations. -/
def attrs0 : RequestAttributes :=
  { principal := "cluster.local/ns/default/sa/sleep"
    requestPrincipal := ""
    sourceNamespace := "dev"
    sourceIP := "1.2.3.4"
    host := "httpbin.example.com"
    port := 80
    method := "POST"
    path := "/data"
    workloadLabels := [("app", "httpbin")]
    named := [] }

/-- A DENY policy with no selector and an unset (empty) rule list. -/
def polDenyNoRules : AuthorizationPolicy :=
  { Spec := { Selector := none, Rules := [], Action := AuthorizationPolicyActionDeny } }

/-- A DENY policy with no selector whose rule list holds the single empty
rule. -/
def polDenyEmptyRule : AuthorizationPolicy :=
  { Spec := { Selector := none, Rules := [{ From := [], To := [], When := [] }],
              Action := AuthorizationPolicyActionDeny } }

/-- An ALLOW policy selecting workloads labelled app=other. -/
def polSelectorOther : AuthorizationPolicy :=
  { Spec := { Selector := some { MatchLabels := [("app", "other")] },
              Rules := [{ From := [], To := [], When := [] }],
              Action := AuthorizationPolicyActionAllow } }

/-- A policy carrying an action value that is neither ALLOW nor DENY nor
unset. -/
def polBadAction : AuthorizationPolicy :=
  { Spec := { Selector := none, Rules := [{ From := [], To := [], When := [] }],
              Action := "AUDIT" } }

/-- A condition on a JWT issuer claim, as in the spec's test property 7. -/
def condIss : Condition :=
  { Key := "request.auth.claims[iss]"
    Values := ["https://accounts.google.com"]
    NotValues := [] }

/-- A rule whose only constraint is `condIss`. -/
def ruleIss : Rule := { From := [], To := [], When := [condIss] }

end IstioClientGo

namespace IstioClientGo

theorem Timestamp_clone_id (t : Timestamp) : Timestamp.clone t = t := rfl

theorem IstioCondition_clone_id (c : IstioCondition) : IstioCondition.clone c = c := by
  cases c with
  | mk t s pt tt r m =>
    simp only [IstioCondition.clone]
    cases pt <;> cases tt <;> simp [Timestamp_clone_id]

theorem IstioStatus_clone_id (s : IstioStatus) : IstioStatus.clone s = s := by
  cases s with
  | mk conds gen =>
    simp only [IstioStatus.clone]
    congr 1
    induction conds with
    | nil => rfl
    | cons hd tl ih =>
      cases hd <;> simp [IstioCondition_clone_id, ih]

/-- C10: `IstioStatus.DeepCopy` returns nil exactly when its receiver is
nil, and for every non-nil receiver returns an `IstioStatus` structurally
equal to the receiver (conditions and observed generation included);
`IstioCondition.DeepCopy` satisfies the same postcondition. -/
theorem DeepCopy_spec :
    (∀ x : Option IstioStatus, IstioStatus.DeepCopy x = none ↔ x = none) ∧
    (∀ s : IstioStatus, IstioStatus.DeepCopy (some s) = some s) ∧
    (∀ x : Option IstioCondition, IstioCondition.DeepCopy x = none ↔ x = none) ∧
    (∀ c : IstioCondition, IstioCondition.DeepCopy (some c) = some c) := by
  refine ⟨fun x => ?_, fun s => ?_, fun x => ?_, fun c => ?_⟩
  · cases x <;> simp [IstioStatus.DeepCopy]
  · simp [IstioStatus.DeepCopy, IstioStatus_clone_id]
  · cases x <;> simp [IstioCondition.DeepCopy]
  · simp [IstioCondition.DeepCopy, IstioCondition_clone_id]

/-- C3: the glob matcher applies exactly the presence / prefix / suffix /
exact precedence of §4.1, and evaluates the seven quoted examples as the
spec states. -/
theorem globMatch_precedence :
    (∀ v : String, globMatch ("*") v = true ↔ v ≠ "") ∧
    (∀ p v : String, p ≠ "*" →
      1 < p.data.length → p.data.getLast? = some ('*') →
      (globMatch p v = true ↔ p.data.dropLast <+: v.data)) ∧
    (∀ p v : String, p ≠ "*" →
      ¬(1 < p.data.length ∧ p.data.getLast? = some ('*')) →
      1 < p.data.length → p.data.head? = some ('*') →
      (globMatch p v = true ↔ p.data.drop 1 <:+ v.data)) ∧
    (∀ p v : String, p ≠ "*" →
      ¬(1 < p.data.length ∧ p.data.getLast? = some ('*')) →
      ¬(1 < p.data.length ∧ p.data.head? = some ('*')) →
      (globMatch p v = true ↔ v = p)) ∧
    globMatch ("abc*") ("abcd") = true ∧ globMatch ("abc*") ("ab") = false ∧
    globMatch ("*abc") ("xabc") = true ∧ globMatch ("*") ("") = false ∧
    globMatch ("*") ("x") = true ∧ globMatch ("abc") ("abc") = true ∧
    globMatch ("abc") ("abcd") = false := by
  refine ⟨fun v => ?_, fun p v h1 h2 h3 => ?_, fun p v h1 h2 h3 h4 => ?_,
    fun p v h1 h2 h3 => ?_, by decide, by decide, by decide, by decide,
    by decide, by decide, by decide⟩
  · simp [globMatch, String.ext_iff]
  · rw [globMatch, if_neg h1, if_pos ⟨h2, h3⟩]
    exact List.isPrefixOf_iff_prefix
  · rw [globMatch, if_neg h1, if_neg h2, if_pos ⟨h3, h4⟩]
    exact List.isSuffixOf_iff_suffix
  · rw [globMatch, if_neg h1, if_neg h2, if_neg h3]
    simp [eq_comm]

theorem globMatch_precedence_witness :
    globMatch ("abc*") ("abcd") = true ∧ globMatch ("*abc") ("xabc") = true :=
  ⟨(globMatch_precedence.2.1 "abc*" "abcd" (by decide) (by decide) (by decide)).mpr
      (by decide),
   (globMatch_precedence.2.2.1 "*abc" "xabc" (by decide) (by decide) (by decide)
      (by decide)).mpr (by decide)⟩

/-- C4: the list-pair matcher passes iff the positive half passes (empty
list or some glob-matching entry) and the negative half passes (empty
list or no glob-matching entry); it evaluates the two quoted examples as
the spec states, and the very same function is what matches all eight
Source fields and all four Operation field pairs. -/
theorem matchPair_spec :
    (∀ (positive negative : List String) (value : String),
      matchPair positive negative value = true ↔
        ((positive = [] ∨ ∃ p ∈ positive, globMatch p value = true) ∧
         (negative = [] ∨ ∀ p ∈ negative, ¬ globMatch p value = true))) ∧
    matchPair ["a", "b"] ["a"] ("a") = false ∧
    matchPair [] ["a"] ("b") = true ∧
    (∀ (src : Source) (attrs : RequestAttributes),
      matchSource src attrs =
        (matchPair src.Principals src.NotPrincipals attrs.principal &&
         matchPair src.RequestPrincipals src.NotRequestPrincipals attrs.requestPrincipal &&
         matchPair src.Namespaces src.NotNamespaces attrs.sourceNamespace &&
         matchPair src.IPBlocks src.NotIPBlocks attrs.sourceIP)) ∧
    (∀ (op : Operation) (attrs : RequestAttributes),
      matchOperation op attrs =
        (matchPair op.Hosts op.NotHosts attrs.host &&
         matchPair op.Ports op.NotPorts (Nat.repr attrs.port) &&
         matchPair op.Methods op.NotMethods attrs.method &&
         matchPair op.Paths op.NotPaths attrs.path)) := by
  refine ⟨fun positive negative value => ?_, by decide, by decide,
    fun src attrs => rfl, fun op attrs => rfl⟩
  cases positive <;> cases negative <;>
    simp [matchPair, List.any_eq_true, not_or]

/-- C5: a rule matches iff its three categories all pass: From passes when
absent and is otherwise an OR over its sources, To passes when absent
and is otherwise an OR over its operations, and When passes when absent
and is otherwise an AND over every condition; hence the completely empty
rule matches every request. -/
theorem matchRule_spec :
    (∀ (r : Rule) (attrs : RequestAttributes),
      matchRule r attrs = true ↔
        ((r.From = [] ∨ ∃ rf ∈ r.From, matchSourceOpt rf.Source attrs = true) ∧
         (r.To = [] ∨ ∃ rt ∈ r.To, matchOperationOpt rt.Operation attrs = true) ∧
         (r.When = [] ∨ ∀ c ∈ r.When, matchCondition c attrs = true))) ∧
    (∀ attrs : RequestAttributes,
      matchRule { From := [], To := [], When := [] } attrs = true) := by
  refine ⟨fun r attrs => ?_, fun attrs => rfl⟩
  obtain ⟨f, t, w⟩ := r
  cases f <;> cases t <;> cases w <;>
    simp [matchRule, List.any_eq_true, List.all_eq_true, and_assoc]

/-- C7: a condition whose key is absent from the request attributes sees the
empty value set: the condition evaluates to true exactly when its Values
list is empty, so a condition with non-empty Values fails, and every
rule listing that condition in When fails with it. -/
theorem matchCondition_absent_key (c : Condition) (attrs : RequestAttributes)
    (habs : lookupAttr attrs c.Key = []) :
    matchCondition c attrs = c.Values.isEmpty ∧
    (∀ r : Rule, c ∈ r.When → c.Values ≠ [] → matchRule r attrs = false) := by
  have hcond : matchCondition c attrs = c.Values.isEmpty := by
    rw [matchCondition]
    rw [habs]
    cases c.Values <;> cases c.NotValues <;> simp
  refine ⟨hcond, fun r hmem hne => ?_⟩
  have hfalse : matchCondition c attrs = false := by
    rw [hcond]
    cases hv : c.Values with
    | nil => exact absurd hv hne
    | cons a l => simp
  rw [matchRule]
  have hwhen : (if r.When.isEmpty then true
      else r.When.all fun c => matchCondition c attrs) = false := by
    have hne2 : r.When.isEmpty = false := by
      cases hw : r.When with
      | nil => rw [hw] at hmem; simp at hmem
      | cons a l => simp
    rw [if_neg (by simp [hne2]), List.all_eq_false]
    exact ⟨c, hmem, by simp [hfalse]⟩
  rw [hwhen]
  simp

theorem matchCondition_absent_key_witness :
    matchCondition condIss attrs0 = false ∧ matchRule ruleIss attrs0 = false :=
  have h := matchCondition_absent_key condIss attrs0 (by decide)
  ⟨h.1.trans (by decide), h.2 ruleIss (by decide) (by decide)⟩

theorem isDenyAction_iff (p : AuthorizationPolicy) :
    isDenyAction p = true ↔ p.Spec.Action = AuthorizationPolicyActionDeny := by
  simp [isDenyAction]

theorem isAllowAction_iff (p : AuthorizationPolicy) :
    isAllowAction p = true ↔
      (p.Spec.Action = AuthorizationPolicyActionAllow ∨ p.Spec.Action = "") := by
  simp [isAllowAction]

theorem policyMatches_iff (p : AuthorizationPolicy) (attrs : RequestAttributes) :
    policyMatches p attrs = true ↔ ∃ r ∈ p.Spec.Rules, matchRule r attrs = true := by
  simp [policyMatches, List.any_eq_true]

theorem mem_selectPolicies (p : AuthorizationPolicy) (policies : List AuthorizationPolicy)
    (attrs : RequestAttributes) :
    p ∈ selectPolicies policies attrs ↔
      p ∈ policies ∧ selectorMatches p.Spec.Selector attrs.workloadLabels = true := by
  simp [selectPolicies, List.mem_filter]

/-- C1: the decision follows the fixed four-step precedence: after filtering
to the policies whose selector matches the workload, the result is DENY
iff some selected DENY policy has a matching rule, or no selected DENY
policy matches while some selected ALLOW policy exists and none has a
matching rule; symmetrically the result is ALLOW iff no selected DENY
policy matches and either no selected ALLOW policy exists or one of them
has a matching rule. -/
theorem decide_four_step (policies : List AuthorizationPolicy) (attrs : RequestAttributes) :
    (decide policies attrs = Decision.DENY ↔
      denyHit policies attrs ∨
        (¬ denyHit policies attrs ∧ hasAllowPolicy policies attrs ∧
          ¬ allowHit policies attrs)) ∧
    (decide policies attrs = Decision.ALLOW ↔
      ¬ denyHit policies attrs ∧
        (¬ hasAllowPolicy policies attrs ∨ allowHit policies attrs)) := by
  have hd : (((selectPolicies policies attrs).filter isDenyAction).any
      (fun p => policyMatches p attrs) = true) ↔ denyHit policies attrs := by
    rw [List.any_eq_true]
    simp only [List.mem_filter, mem_selectPolicies, isDenyAction_iff, policyMatches_iff,
      denyHit]
    exact exists_congr fun p => by tauto
  have he : (((selectPolicies policies attrs).filter isAllowAction).isEmpty = false) ↔
      hasAllowPolicy policies attrs := by
    rw [List.isEmpty_eq_false_iff_exists_mem]
    simp only [List.mem_filter, mem_selectPolicies, isAllowAction_iff, hasAllowPolicy]
    exact exists_congr fun p => by tauto
  have ha : (((selectPolicies policies attrs).filter isAllowAction).any
      (fun p => policyMatches p attrs) = true) ↔ allowHit policies attrs := by
    rw [List.any_eq_true]
    simp only [List.mem_filter, mem_selectPolicies, isAllowAction_iff, policyMatches_iff,
      allowHit]
    exact exists_congr fun p => by tauto
  cases h1 : ((selectPolicies policies attrs).filter isDenyAction).any
      (fun p => policyMatches p attrs) with
  | true =>
    have hD := hd.mp h1
    simp [decide, h1]
    tauto
  | false =>
    have hD : ¬ denyHit policies attrs := by rw [← hd, h1]; simp
    cases h2 : ((selectPolicies policies attrs).filter isAllowAction).isEmpty with
    | true =>
      have hE : ¬ hasAllowPolicy policies attrs := by rw [← he, h2]; simp
      simp [decide, h1, h2]
      tauto
    | false =>
      have hE : hasAllowPolicy policies attrs := he.mp h2
      cases h3 : ((selectPolicies policies attrs).filter isAllowAction).any
          (fun p => policyMatches p attrs) with
      | true =>
        have hA := ha.mp h3
        simp [decide, h1, h2, h3]
        tauto
      | false =>
        have hA : ¬ allowHit policies attrs := by rw [← ha, h3]; simp
        simp [decide, h1, h2, h3]
        tauto

/-- C6: a request whose target workload is selected by no ALLOW policy and
no DENY policy of the snapshot is allowed. -/
theorem decide_unselected_allow (policies : List AuthorizationPolicy)
    (attrs : RequestAttributes)
    (h : ∀ p ∈ policies, (isAllowAction p = true ∨ isDenyAction p = true) →
      selectorMatches p.Spec.Selector attrs.workloadLabels = false) :
    decide policies attrs = Decision.ALLOW := by
  have hdeny : (selectPolicies policies attrs).filter isDenyAction = [] := by
    rw [List.filter_eq_nil_iff]
    intro a ha hda
    rw [mem_selectPolicies] at ha
    obtain ⟨hp, hs⟩ := ha
    rw [h a hp (Or.inr hda)] at hs
    cases hs
  have hallow : (selectPolicies policies attrs).filter isAllowAction = [] := by
    rw [List.filter_eq_nil_iff]
    intro a ha hda
    rw [mem_selectPolicies] at ha
    obtain ⟨hp, hs⟩ := ha
    rw [h a hp (Or.inl hda)] at hs
    cases hs
  simp [decide, hdeny, hallow]

theorem decide_unselected_allow_witness :
    decide [polSelectorOther] attrs0 = Decision.ALLOW :=
  decide_unselected_allow [polSelectorOther] attrs0 (by decide)

/-- A DENY policy whose rule list is empty (unset), although its selector
matches the request's workload, does not make the decision DENY: the
evaluator returns ALLOW on this snapshot, refuting the claim that an
empty Rules list behaves like the always-matching empty rule. -/
theorem decide_emptyRules_counterexample :
    polDenyNoRules.Spec.Action = AuthorizationPolicyActionDeny ∧
    polDenyNoRules.Spec.Rules = [] ∧
    selectorMatches polDenyNoRules.Spec.Selector attrs0.workloadLabels = true ∧
    decide [polDenyNoRules] attrs0 = Decision.ALLOW ∧
    decide [polDenyNoRules] attrs0 ≠ Decision.DENY := by decide

/-- C2 (amended): for every policy P with Action=DENY whose Rules list
contains the empty rule (which always matches), and every request whose
workload is selected by P's selector, the decision over a snapshot
containing P is DENY. -/
theorem decide_deny_with_empty_rule (S : List AuthorizationPolicy)
    (p : AuthorizationPolicy) (attrs : RequestAttributes) (hmem : p ∈ S)
    (hact : p.Spec.Action = AuthorizationPolicyActionDeny)
    (hrule : ({ From := [], To := [], When := [] } : Rule) ∈ p.Spec.Rules)
    (hsel : selectorMatches p.Spec.Selector attrs.workloadLabels = true) :
    decide S attrs = Decision.DENY := by
  have hany : ((selectPolicies S attrs).filter isDenyAction).any
      (fun q => policyMatches q attrs) = true := by
    rw [List.any_eq_true]
    refine ⟨p, ?_, ?_⟩
    · rw [List.mem_filter, mem_selectPolicies]
      exact ⟨⟨hmem, hsel⟩, by simp [isDenyAction, hact]⟩
    · rw [policyMatches_iff]
      exact ⟨_, hrule, rfl⟩
  simp [decide, hany]

theorem decide_deny_with_empty_rule_witness :
    decide [polDenyEmptyRule] attrs0 = Decision.DENY :=
  decide_deny_with_empty_rule [polDenyEmptyRule] polDenyEmptyRule attrs0
    (by decide) rfl (by decide) rfl

/-- C9: appending a DENY policy with an unset (empty) rule list to any
snapshot never changes the decision, because a rule list that is not set
never matches any request. -/
theorem decide_append_deny_noRules (S : List AuthorizationPolicy)
    (p : AuthorizationPolicy) (attrs : RequestAttributes)
    (hact : p.Spec.Action = AuthorizationPolicyActionDeny)
    (hrules : p.Spec.Rules = []) :
    decide (S ++ [p]) attrs = decide S attrs := by
  have hda : isDenyAction p = true := by simp [isDenyAction, hact]
  have hal : isAllowAction p = false := by
    simp only [isAllowAction, hact]
    decide
  have hpm : policyMatches p attrs = false := by simp [policyMatches, hrules]
  cases hs : selectorMatches p.Spec.Selector attrs.workloadLabels with
  | false =>
    have hsp : selectPolicies (S ++ [p]) attrs = selectPolicies S attrs := by
      simp [selectPolicies, List.filter_append, hs]
    unfold decide
    rw [hsp]
  | true =>
    have hsp : selectPolicies (S ++ [p]) attrs = selectPolicies S attrs ++ [p] := by
      simp [selectPolicies, List.filter_append, hs]
    unfold decide
    rw [hsp]
    simp [List.filter_append, List.any_append, hda, hal, hpm]

theorem decide_append_deny_noRules_witness :
    decide ([polSelectorOther] ++ [polDenyNoRules]) attrs0 =
      decide [polSelectorOther] attrs0 :=
  decide_append_deny_noRules [polSelectorOther] polDenyNoRules attrs0 rfl rfl

/-- C8: a policy whose action value is neither ALLOW nor DENY nor unset is
rejected at load time and excluded from every active snapshot, so it is
never evaluated as if its action were ALLOW. -/
theorem loadPolicy_unknown_action (p : AuthorizationPolicy)
    (h1 : p.Spec.Action ≠ AuthorizationPolicyActionAllow)
    (h2 : p.Spec.Action ≠ AuthorizationPolicyActionDeny)
    (h3 : p.Spec.Action ≠ "") :
    loadPolicy p = none ∧ ∀ S, p ∉ loadSnapshot S := by
  have hv : validAction p.Spec.Action = false := by
    simp [validAction, h1, h2, h3]
  have hl : loadPolicy p = none := by simp [loadPolicy, hv]
  refine ⟨hl, fun S hmem => ?_⟩
  rw [loadSnapshot, List.mem_filterMap] at hmem
  obtain ⟨q, hq, hload⟩ := hmem
  simp only [loadPolicy] at hload
  by_cases hvq : validAction q.Spec.Action = true
  · rw [if_pos hvq] at hload
    have heq : q = p := by
      injection hload
    rw [heq] at hvq
    rw [hv] at hvq
    cases hvq
  · rw [if_neg hvq] at hload
    cases hload

theorem loadPolicy_unknown_action_witness :
    loadPolicy polBadAction = none ∧ polBadAction ∉ loadSnapshot [polBadAction] :=
  have h := loadPolicy_unknown_action polBadAction (by decide) (by decide) (by decide)
  ⟨h.1, h.2 [polBadAction]⟩

end IstioClientGo
